import Mathlib

/-!
Verification development for the migration management subsystem of the
enhanced-postgres-mcp-server repository.

The development shallowly embeds the TypeScript source:

* `src/services/MigrationService.ts` — the `MigrationService` class
  (`ensureMigrationsDir`, `generateMigrationId`, `generateChecksum`,
  `createMigration`, `getMigrations`, `removeMigration`,
  `generateRevertSql`);
* the tool dispatch in the server entry point — the `applyMigrations`
  and `revertMigration` cases.

Modelling conventions:

* The file system touched by the service (the migrations directory, the
  metadata index `metadata.json`, and the per-migration `.sql` files) is
  a `StoreState` record.  File contents of the per-migration `.sql`
  files are not tracked, only their presence, since no embedded
  operation reads them back.
* `Date.now()` and `crypto.randomBytes(4).toString(hex)` are
  nondeterministic inputs of the process; they become explicit
  parameters (`now : Nat`, `rand : String`).  The source calls
  `Date.now()` up to three times inside `createMigration`; all three
  occur inside the same operation and are modelled by one parameter.
* Fallible operations return `Except String` (the thrown JS `Error` or
  filesystem error, keyed by a representative message) and, where the
  source performs writes before the throwing step, also the state as
  left behind by the partial execution.
* `crypto.createHash(sha256)` is modelled by a full executable SHA-256
  over the UTF-8 bytes of the string, matching Node, which hashes the
  UTF-8 encoding.
* The regular expressions used by `generateRevertSql` are embedded as
  executable matchers that implement the exact JS regex semantics for
  those patterns: leftmost match, case-insensitive literals, greedy
  `\s+` and `[^\s(]+` / `[^\s]+` classes, lazy `.*?` (with `.` not
  matching line terminators), and the backtracking order of the
  optional groups.
-/

/-! ## JavaScript string primitives -/

/-- Characters matched by the JS regex class `\s` (ECMAScript WhiteSpace
and LineTerminator productions). -/
def isJsWs (c : Char) : Bool :=
  c == ' ' || c == '\t' || c == '\n' || c == '\r' ||
  c.toNat == 11 || c.toNat == 12 || c.toNat == 160 || c.toNat == 5760 ||
  (8192 ≤ c.toNat && c.toNat ≤ 8202) || c.toNat == 8232 || c.toNat == 8233 ||
  c.toNat == 8239 || c.toNat == 8287 || c.toNat == 12288 || c.toNat == 65279

/-- Characters the JS regex `.` (without the `s` flag) does not match:
the ECMAScript LineTerminator set. -/
def isLineTerm (c : Char) : Bool :=
  c == '\n' || c == '\r' || c.toNat == 8232 || c.toNat == 8233

/-- Splitting of a character list at every single space character;
this is the behaviour of the JS call `str.split(' ')`, which keeps
empty fragments between consecutive separators. -/
def splitSpace : List Char → List (List Char)
  | [] => [[]]
  | c :: rest =>
    if c = ' ' then [] :: splitSpace rest
    else
      match splitSpace rest with
      | [] => [[c]]
      | g :: gs => (c :: g) :: gs

/-- Port of the JS expression `s.split(' ')`. -/
def jsSplitSpace (s : String) : List String :=
  (splitSpace s.data).map String.mk

/-- Fuel-driven most-significant-first decimal digit list of a natural
number.  The fuel argument only serves to make the recursion
structural; `decChars` supplies enough fuel for any input. -/
def decCharsAux : Nat → Nat → List Char
  | 0, _ => []
  | fuel + 1, n =>
    if n < 10 then [Nat.digitChar n]
    else decCharsAux fuel (n / 10) ++ [Nat.digitChar (n % 10)]

/-- Decimal digit characters of a natural number, most significant
first; this is the behaviour of the JS call `n.toString()` on a
non-negative integer. -/
def decChars (n : Nat) : List Char := decCharsAux (n + 1) n

/-- Lexicographic strict order on strings, comparing the underlying
character sequences; this is the order of the JS `<` operator on
strings restricted to the characters occurring here. -/
def strLexLt (s t : String) : Prop := List.Lex (· < ·) s.data t.data

instance (s t : String) : Decidable (strLexLt s t) := by
  unfold strLexLt; infer_instance

/-! ## UTF-8 and SHA-256 (model of `crypto.createHash(sha256)`) -/

/-- UTF-8 encoding of a single character as a byte list. -/
def utf8Enc (c : Char) : List Nat :=
  let n := c.toNat
  if n < 128 then [n]
  else if n < 2048 then [192 + n / 64, 128 + n % 64]
  else if n < 65536 then [224 + n / 4096, 128 + (n / 64) % 64, 128 + n % 64]
  else [240 + n / 262144, 128 + (n / 4096) % 64, 128 + (n / 64) % 64, 128 + n % 64]

/-- UTF-8 bytes of a string, the input Node feeds to the hash. -/
def utf8Bytes (s : String) : List Nat := s.data.flatMap utf8Enc

/-- Truncation to a 32-bit word. -/
def m32 (x : Nat) : Nat := x % 4294967296

/-- Right rotation of a 32-bit word. -/
def rotr (n x : Nat) : Nat := m32 ((x >>> n) ||| (x <<< (32 - n)))

/-- SHA-256 big sigma 0. -/
def bsig0 (x : Nat) : Nat := (rotr 2 x) ^^^ (rotr 13 x) ^^^ (rotr 22 x)

/-- SHA-256 big sigma 1. -/
def bsig1 (x : Nat) : Nat := (rotr 6 x) ^^^ (rotr 11 x) ^^^ (rotr 25 x)

/-- SHA-256 small sigma 0. -/
def ssig0 (x : Nat) : Nat := (rotr 7 x) ^^^ (rotr 18 x) ^^^ (x >>> 3)

/-- SHA-256 small sigma 1. -/
def ssig1 (x : Nat) : Nat := (rotr 17 x) ^^^ (rotr 19 x) ^^^ (x >>> 10)

/-- SHA-256 round constants. -/
def shaK : List Nat :=
  [1116352408, 1899447441, 3049323471, 3921009573, 961987163, 1508970993,
   2453635748, 2870763221, 3624381080, 310598401, 607225278, 1426881987,
   1925078388, 2162078206, 2614888103, 3248222580, 3835390401, 4022224774,
   264347078, 604807628, 770255983, 1249150122, 1555081692, 1996064986,
   2554220882, 2821834349, 2952996808, 3210313671, 3336571891, 3584528711,
   113926993, 338241895, 666307205, 773529912, 1294757372, 1396182291,
   1695183700, 1986661051, 2177026350, 2456956037, 2730485921, 2820302411,
   3259730800, 3345764771, 3516065817, 3600352804, 4094571909, 275423344,
   430227734, 506948616, 659060556, 883997877, 958139571, 1322822218,
   1537002063, 1747873779, 1955562222, 2024104815, 2227730452, 2361852424,
   2428436474, 2756734187, 3204031479, 3329325298]

/-- SHA-256 initial hash state. -/
def shaH0 : List Nat :=
  [1779033703, 3144134277, 1013904242, 2773480762, 1359893119, 2600822924,
   528734635, 1541459225]

/-- SHA-256 message padding: a 0x80 byte, zeros to 56 mod 64, and the
bit length as an 8-byte big-endian integer. -/
def padBytes (msg : List Nat) : List Nat :=
  let len := msg.length
  let zeros := (120 - ((len + 1) % 64)) % 64
  msg ++ [128] ++ List.replicate zeros 0 ++
    (List.range 8).map (fun i => ((len * 8) >>> ((7 - i) * 8)) % 256)

/-- Big-endian grouping of bytes into 32-bit words. -/
def bytesToWords : List Nat → List Nat
  | b0 :: b1 :: b2 :: b3 :: rest =>
    (((b0 * 256 + b1) * 256 + b2) * 256 + b3) :: bytesToWords rest
  | _ => []

/-- Grouping of the word stream into 16-word blocks. -/
def toBlocks : List Nat → List (List Nat)
  | w0 :: w1 :: w2 :: w3 :: w4 :: w5 :: w6 :: w7 ::
    w8 :: w9 :: w10 :: w11 :: w12 :: w13 :: w14 :: w15 :: rest =>
    [w0, w1, w2, w3, w4, w5, w6, w7, w8, w9, w10, w11, w12, w13, w14, w15] :: toBlocks rest
  | _ => []

/-- One step of the message-schedule extension. -/
def extendStep (ws : List Nat) : List Nat :=
  let n := ws.length
  ws ++ [m32 (ssig1 (ws.getD (n - 2) 0) + ws.getD (n - 7) 0 +
              ssig0 (ws.getD (n - 15) 0) + ws.getD (n - 16) 0)]

/-- Iterated message-schedule extension. -/
def extendWords : Nat → List Nat → List Nat
  | 0, ws => ws
  | k + 1, ws => extendWords k (extendStep ws)

/-- One SHA-256 compression round over the eight working variables. -/
def compressStep (st : List Nat) (kw : Nat × Nat) : List Nat :=
  match st with
  | [a, b, c, d, e, f, g, h] =>
    let ch := (e &&& f) ^^^ ((4294967295 - e) &&& g)
    let maj := (a &&& b) ^^^ (a &&& c) ^^^ (b &&& c)
    let t1 := m32 (h + bsig1 e + ch + kw.1 + kw.2)
    let t2 := m32 (bsig0 a + maj)
    [m32 (t1 + t2), a, b, c, m32 (d + t1), e, f, g]
  | other => other

/-- Processing of one 16-word block against the running hash state. -/
def processBlock (hs : List Nat) (block : List Nat) : List Nat :=
  let ws := extendWords 48 block
  let fin := (shaK.zip ws).foldl compressStep hs
  List.zipWith (fun x y => m32 (x + y)) hs fin

/-- SHA-256 of a byte list, as eight 32-bit words. -/
def sha256Words (msg : List Nat) : List Nat :=
  (toBlocks (bytesToWords (padBytes msg))).foldl processBlock shaH0

/-- Lowercase hexadecimal digit for a value below 16. -/
def hexChar (n : Nat) : Char := if n < 10 then Nat.digitChar n else Char.ofNat (87 + n)

/-- Eight lowercase hex characters of a 32-bit word. -/
def toHex8 (w : Nat) : List Char :=
  (List.range 8).map (fun i => hexChar ((w >>> ((7 - i) * 4)) % 16))

/-- Lowercase hex SHA-256 digest of the UTF-8 bytes of a string; this
is the JS expression `crypto.createHash(sha256).update(s).digest(hex)`. -/
def sha256Hex (s : String) : String :=
  String.mk ((sha256Words (utf8Bytes s)).flatMap toHex8)

/-! ## Data model

`Migration` mirrors the record built in `createMigration`
(`src/services/MigrationService.ts`, lines 40-48); the `type` union of
the TypeScript source becomes the inductive `MigrationType`. -/

/-- The migration type union: table, function, trigger, index, alter. -/
inductive MigrationType
  | table
  | function
  | trigger
  | index
  | alter
deriving DecidableEq

/-- String form of a migration type, as interpolated by the source. -/
def typeName : MigrationType → String
  | .table => "table"
  | .function => "function"
  | .trigger => "trigger"
  | .index => "index"
  | .alter => "alter"

deriving instance DecidableEq for Except

/-- A migration record as stored in the metadata index. -/
structure Migration where
  id : String
  name : String
  timestamp : Nat
  sql : String
  type : MigrationType
  description : Option String
  checksum : String
deriving DecidableEq

/-- State of the file system as seen by `MigrationService`:
whether the migrations directory exists, the parsed content of
`metadata.json` (`none` when the file is absent or unreadable), and the
names of the per-migration `.sql` files present. -/
structure StoreState where
  dirExists : Bool
  metadata : Option (List Migration)
  files : List String
deriving DecidableEq

/-! ## MigrationService -/

/-- Embedding of `ensureMigrationsDir` (lines 20-27): `fs.access` on the
migrations directory succeeds exactly when the directory exists, in
which case nothing happens; otherwise the directory is created and the
metadata file is written with an empty migrations list. -/
def ensureMigrationsDir (st : StoreState) : StoreState :=
  if st.dirExists then st
  else { dirExists := true, metadata := some [], files := st.files }

/-- Embedding of `generateMigrationId` (lines 29-31):
`Date.now().toString() + '_' + crypto.randomBytes(4).toString(hex)`,
with the clock value and random suffix as explicit inputs. -/
def generateMigrationId (now : Nat) (rand : String) : String :=
  String.mk (decChars now) ++ "_" ++ rand

/-- Embedding of `generateChecksum` (lines 33-35). -/
def generateChecksum (sql : String) : String := sha256Hex sql

/-- File name of the SQL file for a migration id, relative to the
migrations directory (`path.join(this.migrationsDir, id + .sql)`). -/
def fileNameFor (migrationId : String) : String := migrationId ++ ".sql"

/-- Embedding of `createMigration` (lines 37-67).  After the
`ensureMigrationsDir` call the record is built, its SQL file is
written, and then the metadata file is read with `JSON.parse` outside
any try/catch: when the metadata file is absent the read throws and the
call fails with the SQL file already written (first component `none`);
otherwise the record is appended to the index. -/
def createMigration (st : StoreState) (type : MigrationType) (sql : String)
    (description : Option String) (now : Nat) (rand : String) :
    Option Migration × StoreState :=
  let st1 := ensureMigrationsDir st
  let migration : Migration :=
    { id := generateMigrationId now rand
      name := typeName type ++ "_" ++ String.mk (decChars now)
      timestamp := now
      sql := sql
      type := type
      description := description
      checksum := generateChecksum sql }
  let st2 : StoreState := { st1 with files := st1.files ++ [fileNameFor migration.id] }
  match st2.metadata with
  | none => (none, st2)
  | some migrations => (some migration, { st2 with metadata := some (migrations ++ [migration]) })

/-- Embedding of `getMigrations` (lines 69-76): returns the parsed
migrations list, or the empty list when reading or parsing the
metadata file fails. -/
def getMigrations (st : StoreState) : List Migration :=
  match st.metadata with
  | some metadata => metadata
  | none => []

/-- Embedding of `removeMigration` (lines 89-98).  The metadata file is
read with `JSON.parse` outside any try/catch, so an absent index makes
the call fail before any write.  Otherwise entries whose id equals the
argument are filtered out and the index is rewritten; then `fs.unlink`
on the SQL file either succeeds, or rejects with ENOENT when the file
is absent — with the filtered index already written. -/
def removeMigration (migrationId : String) (st : StoreState) :
    Except String Unit × StoreState :=
  match st.metadata with
  | none => (.error "ENOENT: no such file or directory, open metadata.json", st)
  | some migrations =>
    let st1 : StoreState :=
      { st with metadata := some (migrations.filter (fun m => m.id != migrationId)) }
    if fileNameFor migrationId ∈ st1.files then
      (.ok (), { st1 with files := st1.files.erase (fileNameFor migrationId) })
    else
      (.error "ENOENT: no such file or directory, unlink", st1)

/-! ### The revert synthesizer regular expressions

`generateRevertSql` (lines 100-120) uses three JS regexes; each is
embedded as a matcher with the exact leftmost-match backtracking
semantics of the pattern. -/

/-- Case-insensitive literal match (the `i` flag on an ASCII literal):
consumes the pattern characters, comparing lowercased. -/
def litCI : List Char → List Char → Option (List Char)
  | [], cs => some cs
  | _ :: _, [] => none
  | p :: ps, c :: cs => if p.toLower == c.toLower then litCI ps cs else none

/-- Matcher for `\s+` where the token after it cannot start with
whitespace: consumes the maximal nonempty whitespace run. -/
def wsPlus (cs : List Char) : Option (List Char) :=
  match cs.span isJsWs with
  | (w, r) => if w.isEmpty then none else some r

/-- Greedy nonempty character-class capture (`[^...]+` followed by a
token that cannot start with a class character): takes the maximal run
satisfying the class predicate. -/
def capWhile (p : Char → Bool) (cs : List Char) : Option (String × List Char) :=
  match cs.span p with
  | (tok, r) => if tok.isEmpty then none else some (String.mk tok, r)

/-- Tail `FUNCTION\s+([^\s(]+)` of the function-name pattern. -/
def fnTail (u : List Char) : Option String := do
  let u1 ← litCI "FUNCTION".data u
  let u2 ← wsPlus u1
  let (tok, _) ← capWhile (fun c => !(isJsWs c) && c != '(') u2
  pure tok

/-- Single-position matcher for
`CREATE\s+(?:OR\s+REPLACE\s+)?FUNCTION\s+([^\s(]+)` with the `i` flag:
the optional group is tried first and abandoned if the remainder of the
pattern fails after it. -/
def matchFunctionAt (cs : List Char) : Option String := do
  let r1 ← litCI "CREATE".data cs
  let r2 ← wsPlus r1
  match (do
      let r3 ← litCI "OR".data r2
      let r4 ← wsPlus r3
      let r5 ← litCI "REPLACE".data r4
      let r6 ← wsPlus r5
      fnTail r6) with
  | some tok => pure tok
  | none => fnTail r2

/-- Leftmost-match search: the matcher is tried at every position of
the subject, earliest first, as a JS regex without anchors does. -/
def scanFor (m : List Char → Option α) : List Char → Option α
  | [] => m []
  | c :: cs =>
    match m (c :: cs) with
    | some r => some r
    | none => scanFor m cs

/-- Capture group 1 of `sql.match(/CREATE\s+(?:OR\s+REPLACE\s+)?FUNCTION\s+([^\s(]+)/i)`. -/
def findFunctionName (s : String) : Option String := scanFor matchFunctionAt s.data

/-- Tail `ON\s+([^\s]+)` of the trigger pattern. -/
def onTail (v : List Char) : Option String := do
  let v1 ← litCI "ON".data v
  let v2 ← wsPlus v1
  let (tok, _) ← capWhile (fun c => !(isJsWs c)) v2
  pure tok

/-- Lazy `.*?` before a continuation: the continuation is tried at the
current position first, then one further character is consumed at a
time, never crossing a line terminator (JS `.` without the `s` flag). -/
def lazyThen (f : List Char → Option α) : List Char → Option α
  | [] => f []
  | c :: rest =>
    match f (c :: rest) with
    | some r => some r
    | none => if isLineTerm c then none else lazyThen f rest

/-- Descending-length `\s+` backtracking: candidate remainders after
consuming k whitespace characters are tried for k from the maximal run
length down to 1, the greedy order of `\s+` before a lazy `.*?`. -/
def wsDescGo (f : List Char → Option α) (cs : List Char) : Nat → Option α
  | 0 => none
  | k + 1 =>
    match f (cs.drop (k + 1)) with
    | some r => some r
    | none => wsDescGo f cs k

/-- Greedy-with-backtracking `\s+` before a lazy remainder. -/
def wsDesc (f : List Char → Option α) (cs : List Char) : Option α :=
  wsDescGo f cs (cs.takeWhile isJsWs).length

/-- Single-position matcher for
`CREATE\s+TRIGGER\s+([^\s]+)\s+.*?ON\s+([^\s]+)` with the `i` flag. -/
def matchTriggerAt (cs : List Char) : Option (String × String) := do
  let r1 ← litCI "CREATE".data cs
  let r2 ← wsPlus r1
  let r3 ← litCI "TRIGGER".data r2
  let r4 ← wsPlus r3
  let (triggerName, r5) ← capWhile (fun c => !(isJsWs c)) r4
  let tableName ← wsDesc (lazyThen onTail) r5
  pure (triggerName, tableName)

/-- Capture groups of `sql.match(/CREATE\s+TRIGGER\s+([^\s]+)\s+.*?ON\s+([^\s]+)/i)`. -/
def findTriggerNames (s : String) : Option (String × String) :=
  scanFor matchTriggerAt s.data

/-- Tail `INDEX\s+([^\s]+)` of the index pattern. -/
def idxTail (u : List Char) : Option String := do
  let u1 ← litCI "INDEX".data u
  let u2 ← wsPlus u1
  let (tok, _) ← capWhile (fun c => !(isJsWs c)) u2
  pure tok

/-- Single-position matcher for
`CREATE\s+(?:UNIQUE\s+)?INDEX\s+([^\s]+)` with the `i` flag. -/
def matchIndexAt (cs : List Char) : Option String := do
  let r1 ← litCI "CREATE".data cs
  let r2 ← wsPlus r1
  match (do
      let r3 ← litCI "UNIQUE".data r2
      let r4 ← wsPlus r3
      idxTail r4) with
  | some tok => pure tok
  | none => idxTail r2

/-- Capture group 1 of `sql.match(/CREATE\s+(?:UNIQUE\s+)?INDEX\s+([^\s]+)/i)`. -/
def findIndexName (s : String) : Option String := scanFor matchIndexAt s.data

/-- Embedding of `generateRevertSql` (lines 100-120).  For the table
kind the source interpolates `migration.sql.split(' ')[2]` into the
template; indexing a JS array out of range yields `undefined`, which a
template literal renders as the text undefined, hence the default
string here.  The alter kind reaches the default branch, which throws. -/
def generateRevertSql (migration : Migration) : Except String String :=
  match migration.type with
  | .table =>
    .ok ("DROP TABLE IF EXISTS " ++ (jsSplitSpace migration.sql).getD 2 "undefined")
  | .function =>
    match findFunctionName migration.sql with
    | some functionName => .ok ("DROP FUNCTION IF EXISTS " ++ functionName)
    | none => .ok ""
  | .trigger =>
    match findTriggerNames migration.sql with
    | some (triggerName, tableName) =>
      .ok ("DROP TRIGGER IF EXISTS " ++ triggerName ++ " ON " ++ tableName)
    | none => .ok ""
  | .index =>
    match findIndexName migration.sql with
    | some indexName => .ok ("DROP INDEX IF EXISTS " ++ indexName)
    | none => .ok ""
  | .alter => .error ("Revert not implemented for migration type: " ++ typeName .alter)

/-! ## Tool dispatch (server entry point) -/

/-- Loop body of the `applyMigrations` tool case: a record whose id
strictly equals `fromId` sets the flag and is skipped by `continue`;
records seen while the flag is set are passed to `applyMigration`.  The
returned list is the sequence of records applied, in application order,
for a run in which every application succeeds. -/
def applyLoop (fromId : Option String) : Bool → List Migration → List Migration
  | _, [] => []
  | shouldApply, migration :: rest =>
    if some migration.id = fromId then applyLoop fromId true rest
    else if shouldApply then migration :: applyLoop fromId shouldApply rest
    else applyLoop fromId shouldApply rest

/-- Initial value of the flag, the JS expression `!fromId`: true when
`fromId` is undefined and also when it is a provided empty string,
which is falsy. -/
def jsNotProvided (fromId : Option String) : Bool :=
  match fromId with
  | none => true
  | some s => s == ""

/-- Records applied by the `applyMigrations` tool case, in order. -/
def applyMigrationsOrder (fromId : Option String) (migrations : List Migration) :
    List Migration :=
  applyLoop fromId (jsNotProvided fromId) migrations

/-- Target selection of the `revertMigration` tool case: the record
with the given id, or the last record when no id is given. -/
def selectTarget (migrationId : Option String) (migrations : List Migration) :
    Option Migration :=
  match migrationId with
  | some mid => migrations.find? (fun m => m.id == mid)
  | none => migrations.getLast?

/-- Outcome of the `revertMigration` tool case: the result (the revert
SQL on success, the propagated error message otherwise) together with
the final store and database states. -/
structure RevertOutcome (D : Type) where
  res : Except String String
  store : StoreState
  db : D

/-- Embedding of the `revertMigration` tool case.  The database is an
abstract state `D` with an execution oracle `exec`; `exec db sql = some
db'` models BEGIN, a successful execution of `sql`, and COMMIT leaving
state `db'`, while `none` models a failing execution whose transaction
is rolled back, leaving the database unchanged.  On successful commit
the handler calls `removeMigration`; if that throws, the catch block
issues ROLLBACK after the commit (a no-op on the database) and
propagates the error, with the partial store write kept. -/
def revertMigrationTool {D : Type} (exec : D → String → Option D)
    (migrationId : Option String) (st : StoreState) (db : D) : RevertOutcome D :=
  let migrations := getMigrations st
  if migrations.isEmpty then ⟨.error "No migrations to revert", st, db⟩
  else
    match selectTarget migrationId migrations with
    | none => ⟨.error "Migration not found", st, db⟩
    | some targetMigration =>
      match generateRevertSql targetMigration with
      | .error e => ⟨.error e, st, db⟩
      | .ok revertSql =>
        match exec db revertSql with
        | none => ⟨.error "ExecutionFailure", st, db⟩
        | some db' =>
          match removeMigration targetMigration.id st with
          | (.ok _, st') => ⟨.ok revertSql, st', db'⟩
          | (.error e, st') => ⟨.error e, st', db'⟩

/-! ## Creation sequences -/

/-- Inputs of one `createMigration` call: the tool parameters together
with the clock value and random suffix drawn during the call. -/
structure CallSpec where
  type : MigrationType
  sql : String
  description : Option String
  now : Nat
  rand : String
deriving DecidableEq

/-- The record a `createMigration` call builds from its inputs. -/
def mkRecord (c : CallSpec) : Migration :=
  { id := generateMigrationId c.now c.rand
    name := typeName c.type ++ "_" ++ String.mk (decChars c.now)
    timestamp := c.now
    sql := c.sql
    type := c.type
    description := c.description
    checksum := generateChecksum c.sql }

/-- Sequential execution of a list of `createMigration` calls. -/
def runCreations (st : StoreState) : List CallSpec → StoreState
  | [] => st
  | c :: rest =>
    runCreations (createMigration st c.type c.sql c.description c.now c.rand).2 rest

/-! ## Concrete instances used by witnesses and counterexamples -/

/-- A store that is fully initialized and empty. -/
def initializedStore : StoreState := { dirExists := true, metadata := some [], files := [] }

/-- First of three example records. -/
def recA : Migration :=
  { id := "a", name := "table_1", timestamp := 1, sql := "CREATE TABLE ta (x int)",
    type := .table, description := none, checksum := "ck" }

/-- Second of three example records. -/
def recB : Migration :=
  { id := "b", name := "table_2", timestamp := 2, sql := "CREATE TABLE tb (x int)",
    type := .table, description := none, checksum := "ck" }

/-- Third of three example records. -/
def recC : Migration :=
  { id := "c", name := "table_3", timestamp := 3, sql := "CREATE TABLE tc (x int)",
    type := .table, description := none, checksum := "ck" }

/-- A record whose SQL file will be looked for under the name m1.sql. -/
def recM1 : Migration :=
  { id := "m1", name := "table_1", timestamp := 1, sql := "CREATE TABLE tasks (id SERIAL PRIMARY KEY)",
    type := .table, description := none, checksum := "ck" }

/-- Two creation calls that fall within the same clock millisecond,
with a random suffix that decreases. -/
def sameMsCalls : List CallSpec :=
  [⟨.table, "CREATE TABLE t1 (x int)", none, 5, "bb"⟩,
   ⟨.table, "CREATE TABLE t2 (x int)", none, 5, "aa"⟩]

/-- Two creation calls on strictly increasing clock values whose
decimal representations have equal length. -/
def increasingCalls : List CallSpec :=
  [⟨.table, "CREATE TABLE t1 (x int)", none, 2, "xx"⟩,
   ⟨.table, "CREATE TABLE t2 (x int)", none, 5, "yy"⟩]

/-- The record produced by createMigration for sql abc at clock 5 with
random suffix ab; its checksum field is the SHA-256 digest of abc. -/
def recAbc : Migration :=
  { id := "5_ab", name := "table_5", timestamp := 5, sql := "abc", type := .table,
    description := none,
    checksum := "ba7816bf8f01cfea414140de5dae2223b00361a396177a9cb410ff61f20015ad" }

/-- An execution oracle over a Nat-valued database state that fails on
every statement. -/
def failingExec : Nat → String → Option Nat := fun _ _ => none

/-! ## Helper lemmas -/

/-- Appending strings concatenates the underlying character lists. -/
theorem string_data_append (s t : String) : (s ++ t).data = s.data ++ t.data := by
  cases s; cases t; rfl

/-- A string with a nonempty character list stays nonempty under
appending. -/
theorem append_ne_empty (s t : String) (h : s.data ≠ []) : s ++ t ≠ "" := by
  intro he
  have hd := congrArg String.data he
  rw [string_data_append] at hd
  exact h (List.append_eq_nil.mp hd).1

/-- FIPS 180-4 test vector for the empty message. -/
theorem sha256Hex_empty :
    sha256Hex "" = "e3b0c44298fc1c149afbf4c8996fb92427ae41e4649b934ca495991b7852b855" := by
  decide

/-- FIPS 180-4 test vector for the message abc. -/
theorem sha256Hex_abc :
    sha256Hex "abc" = "ba7816bf8f01cfea414140de5dae2223b00361a396177a9cb410ff61f20015ad" := by
  decide

/-- Splitting at single spaces peels off a space-free token before a
separator. -/
theorem splitSpace_sep (w t : List Char) (h : ' ' ∉ w) :
    splitSpace (w ++ ' ' :: t) = w :: splitSpace t := by
  induction w with
  | nil => simp [splitSpace]
  | cons c w ih =>
    have hc : c ≠ ' ' := fun hce => h (hce ▸ List.mem_cons_self c w)
    have hw : ' ' ∉ w := fun hmem => h (List.mem_cons_of_mem c hmem)
    rw [List.cons_append]
    show splitSpace (c :: (w ++ ' ' :: t)) = (c :: w) :: splitSpace t
    simp only [splitSpace, if_neg hc]
    rw [ih hw]

/-- Once the flag is set, the loop of applyMigrations applies every
remaining record whose id is not the requested one. -/
theorem applyLoop_true_all (f : String) (l : List Migration)
    (h : ∀ x ∈ l, x.id ≠ f) : applyLoop (some f) true l = l := by
  induction l with
  | nil => rfl
  | cons m rest ih =>
    have hm : ¬ (some m.id = some f) := by
      simp only [Option.some.injEq]
      exact h m (List.mem_cons_self m rest)
    have ihr := ih (fun x hx => h x (List.mem_cons_of_mem m hx))
    simp [applyLoop, hm, ihr]

/-- While the flag is unset, records whose id is not the requested one
are dropped without being applied. -/
theorem applyLoop_false_pre (f : String) (pre rest : List Migration)
    (h : ∀ x ∈ pre, x.id ≠ f) :
    applyLoop (some f) false (pre ++ rest) = applyLoop (some f) false rest := by
  induction pre with
  | nil => rfl
  | cons m pre ih =>
    have hm : ¬ (some m.id = some f) := by
      simp only [Option.some.injEq]
      exact h m (List.mem_cons_self m pre)
    have ihr := ih (fun x hx => h x (List.mem_cons_of_mem m hx))
    simp only [List.cons_append, applyLoop, if_neg hm]
    simpa using ihr

/-- Fuel irrelevance for the decimal digit computation. -/
theorem decCharsAux_irrel : ∀ (f1 f2 n : Nat), n < f1 → n < f2 →
    decCharsAux f1 n = decCharsAux f2 n := by
  intro f1
  induction f1 with
  | zero => intro f2 n h1; omega
  | succ f1 ih =>
    intro f2 n h1 h2
    cases f2 with
    | zero => omega
    | succ f2 =>
      by_cases hn : n < 10
      · simp [decCharsAux, hn]
      · have hd : n / 10 < n := Nat.div_lt_self (by omega) (by omega)
        simp only [decCharsAux, if_neg hn]
        rw [ih f2 (n / 10) (by omega) (by omega)]

/-- The decimal digit list of a number within fuel is nonempty. -/
theorem decCharsAux_ne_nil : ∀ (fuel n : Nat), n < fuel → decCharsAux fuel n ≠ [] := by
  intro fuel
  cases fuel with
  | zero => intro n h; omega
  | succ fuel =>
    intro n _
    by_cases hn : n < 10
    · simp [decCharsAux, hn]
    · simp [decCharsAux, hn]

/-- Digit characters are strictly monotone on single digits. -/
theorem digitChar_mono : ∀ a b : Fin 10, a.val < b.val →
    Nat.digitChar a.val < Nat.digitChar b.val := by decide

/-- Lexicographic order on lists is preserved by appending suffixes
when the compared prefixes have equal length. -/
theorem list_lex_append {α : Type} {r : α → α → Prop} {l1 l2 : List α} (s1 s2 : List α)
    (h : List.Lex r l1 l2) (hlen : l1.length = l2.length) :
    List.Lex r (l1 ++ s1) (l2 ++ s2) := by
  induction h with
  | nil => simp at hlen
  | cons hrec ih =>
    simp only [List.length_cons, Nat.add_right_cancel_iff] at hlen
    exact List.Lex.cons (ih hlen)
  | rel hab => exact List.Lex.rel hab

/-- An ordered pair of elements after a common prefix gives the
lexicographic order, whatever follows. -/
theorem list_lex_snoc {α : Type} {r : α → α → Prop} {x y : α} (l s1 s2 : List α)
    (h : r x y) : List.Lex r (l ++ x :: s1) (l ++ y :: s2) := by
  induction l with
  | nil => exact List.Lex.rel h
  | cons c l ih => exact List.Lex.cons ih

/-- Same-length decimal representations compare lexicographically the
same way as the numbers themselves. -/
theorem decCharsAux_lt : ∀ (fuel a b : Nat), a < fuel → b < fuel → a < b →
    (decCharsAux fuel a).length = (decCharsAux fuel b).length →
    List.Lex (· < ·) (decCharsAux fuel a) (decCharsAux fuel b) := by
  intro fuel
  induction fuel with
  | zero => intro a b h; omega
  | succ fuel ih =>
    intro a b ha hb hab hlen
    by_cases ha10 : a < 10
    · by_cases hb10 : b < 10
      · simp only [decCharsAux, if_pos ha10, if_pos hb10]
        exact List.Lex.rel (digitChar_mono ⟨a, ha10⟩ ⟨b, hb10⟩ hab)
      · exfalso
        have hbd : b / 10 < fuel := by
          have : b / 10 < b := Nat.div_lt_self (by omega) (by omega)
          omega
        have hne := decCharsAux_ne_nil fuel (b / 10) hbd
        simp only [decCharsAux, if_pos ha10, if_neg hb10] at hlen
        rw [List.length_append] at hlen
        cases hq : decCharsAux fuel (b / 10) with
        | nil => exact hne hq
        | cons u us => rw [hq] at hlen; simp at hlen
    · have hb10 : ¬ b < 10 := by omega
      have had : a / 10 < fuel := by
        have : a / 10 < a := Nat.div_lt_self (by omega) (by omega)
        omega
      have hbd : b / 10 < fuel := by
        have : b / 10 < b := Nat.div_lt_self (by omega) (by omega)
        omega
      simp only [decCharsAux, if_neg ha10, if_neg hb10] at hlen ⊢
      rw [List.length_append, List.length_append] at hlen
      simp only [List.length_cons, List.length_nil] at hlen
      have hlen2 : (decCharsAux fuel (a / 10)).length = (decCharsAux fuel (b / 10)).length := by
        omega
      rcases Nat.lt_trichotomy (a / 10) (b / 10) with hq | hq | hq
      · exact list_lex_append _ _ (ih (a / 10) (b / 10) had hbd hq hlen2) hlen2
      · rw [hq]
        have hmod : a % 10 < b % 10 := by omega
        exact list_lex_snoc _ _ _
          (digitChar_mono ⟨a % 10, Nat.mod_lt a (by omega)⟩ ⟨b % 10, Nat.mod_lt b (by omega)⟩ hmod)
      · exfalso
        omega

/-- Same-length decimal strings compare like the numbers. -/
theorem decChars_lt {a b : Nat} (hab : a < b)
    (hlen : (decChars a).length = (decChars b).length) :
    List.Lex (· < ·) (decChars a) (decChars b) := by
  have ea : decChars a = decCharsAux (a + b + 1) a :=
    decCharsAux_irrel (a + 1) (a + b + 1) a (by omega) (by omega)
  have eb : decChars b = decCharsAux (a + b + 1) b :=
    decCharsAux_irrel (b + 1) (a + b + 1) b (by omega) (by omega)
  rw [ea, eb] at hlen ⊢
  exact decCharsAux_lt (a + b + 1) a b (by omega) (by omega) hab hlen

/-- Migration ids generated at clock values with equal-length decimal
representations are ordered like the clock values, whatever the random
suffixes. -/
theorem generateMigrationId_lt {a b : Nat} (r1 r2 : String) (hab : a < b)
    (hlen : (decChars a).length = (decChars b).length) :
    strLexLt (generateMigrationId a r1) (generateMigrationId b r2) := by
  have e1 : (generateMigrationId a r1).data = decChars a ++ ('_' :: r1.data) := by
    simp [generateMigrationId, string_data_append, List.append_assoc]
  have e2 : (generateMigrationId b r2).data = decChars b ++ ('_' :: r2.data) := by
    simp [generateMigrationId, string_data_append, List.append_assoc]
  unfold strLexLt
  rw [e1, e2]
  exact list_lex_append _ _ (decChars_lt hab hlen) hlen

/-- One successful createMigration call from an initialized state with
readable metadata. -/
theorem createMigration_ok (st : StoreState) (c : CallSpec) (l : List Migration)
    (hd : st.dirExists = true) (hm : st.metadata = some l) :
    createMigration st c.type c.sql c.description c.now c.rand =
      (some (mkRecord c),
        { dirExists := true, metadata := some (l ++ [mkRecord c]),
          files := st.files ++ [fileNameFor (mkRecord c).id] }) := by
  cases st with
  | mk d m f =>
    simp only at hd hm
    subst hd hm
    simp [createMigration, ensureMigrationsDir, mkRecord]

/-- Metadata contents after a sequence of createMigration calls from an
initialized state: the created records are appended in call order. -/
theorem runCreations_metadata : ∀ (calls : List CallSpec) (st : StoreState) (l : List Migration),
    st.dirExists = true → st.metadata = some l →
    (runCreations st calls).dirExists = true ∧
    (runCreations st calls).metadata = some (l ++ calls.map mkRecord) := by
  intro calls
  induction calls with
  | nil => intro st l hd hm; simpa [runCreations] using ⟨hd, hm⟩
  | cons c rest ih =>
    intro st l hd hm
    simp only [runCreations, createMigration_ok st c l hd hm]
    have := ih { dirExists := true, metadata := some (l ++ [mkRecord c]),
                 files := st.files ++ [fileNameFor (mkRecord c).id] }
      (l ++ [mkRecord c]) rfl rfl
    simpa [List.append_assoc] using this

/-! ## Claim theorems -/

/-- C1, counterexample: with three records and fromId equal to the id of
the second, the applyMigrations loop applies only the third record; the
matching record itself is skipped by the continue statement, so the
claimed result — second and third — is wrong. -/
theorem applyPending_inclusive_counterexample :
    applyMigrationsOrder (some "b") [recA, recB, recC] = [recC] ∧
    applyMigrationsOrder (some "b") [recA, recB, recC] ≠ [recB, recC] := by
  decide

/-- C1 (amended): for every ordered migration list containing a record
whose id equals a provided nonempty fromId (and no other record with
that id), applyPending(fromId) applies exactly the records strictly
after the matching record, in list order; the matching record itself
and every record before it are not applied.  The empty string is
excluded because a provided empty fromId is falsy in JS and makes the
flag start true, applying from the first record onward. -/
theorem applyPending_applies_strictly_after_match (fromId : String)
    (pre post : List Migration) (m : Migration) (hne : fromId ≠ "")
    (hm : m.id = fromId) (hpre : ∀ x ∈ pre, x.id ≠ fromId)
    (hpost : ∀ x ∈ post, x.id ≠ fromId) :
    applyMigrationsOrder (some fromId) (pre ++ m :: post) = post := by
  have hflag : jsNotProvided (some fromId) = false := by
    simp [jsNotProvided, hne]
  rw [applyMigrationsOrder, hflag]
  rw [applyLoop_false_pre fromId pre (m :: post) hpre]
  have hcond : some m.id = some fromId := by rw [hm]
  simp only [applyLoop, if_pos hcond]
  exact applyLoop_true_all fromId post hpost

/-- Evaluation of the amended C1 statement on three concrete records
with fromId matching the second: exactly the third is applied. -/
theorem applyPending_applies_strictly_after_match_witness :
    ("b" : String) ≠ "" ∧
    recB.id = "b" ∧ (∀ x ∈ [recA], x.id ≠ "b") ∧ (∀ x ∈ [recC], x.id ≠ "b") ∧
    applyMigrationsOrder (some "b") ([recA] ++ recB :: [recC]) = [recC] :=
  ⟨by decide, by decide, by decide, by decide,
    applyPending_applies_strictly_after_match "b" [recA] [recC] recB
      (by decide) (by decide) (by decide) (by decide)⟩

/-- C2, counterexample: a store whose index holds an entry for id m1
while the SQL file m1.sql is absent; removeMigration fails with the
unlink error instead of succeeding idempotently as claimed. -/
theorem remove_absent_file_counterexample :
    (StoreState.mk true (some [recM1]) []).metadata = some [recM1] ∧
    recM1.id = "m1" ∧
    fileNameFor "m1" ∉ (StoreState.mk true (some [recM1]) []).files ∧
    removeMigration "m1" (StoreState.mk true (some [recM1]) []) =
      (.error "ENOENT: no such file or directory, unlink",
       StoreState.mk true (some []) []) := by
  decide

/-- C2 (amended): removeMigration never inspects the index for the id
and never fails with NotFound on a missing entry; with readable
metadata it always filters matching entries out of the index and then
succeeds exactly when the SQL file for the id exists, failing with the
unlink error (after the index write) when the file is absent. -/
theorem remove_success_iff_file_present (st : StoreState) (l : List Migration)
    (migrationId : String) (hm : st.metadata = some l) :
    (fileNameFor migrationId ∈ st.files →
      removeMigration migrationId st =
        (.ok (), { dirExists := st.dirExists,
                   metadata := some (l.filter (fun m => m.id != migrationId)),
                   files := st.files.erase (fileNameFor migrationId) })) ∧
    (fileNameFor migrationId ∉ st.files →
      removeMigration migrationId st =
        (.error "ENOENT: no such file or directory, unlink",
         { dirExists := st.dirExists,
           metadata := some (l.filter (fun m => m.id != migrationId)),
           files := st.files })) := by
  rcases st with ⟨d, md, f⟩
  simp only at hm
  subst hm
  constructor
  · intro hf
    simp [removeMigration, hf]
  · intro hf
    simp [removeMigration, hf]

/-- Evaluation of the amended C2 statement: with the entry and its file
both present, removeMigration succeeds and deletes both. -/
theorem remove_success_iff_file_present_witness :
    (StoreState.mk true (some [recM1]) ["m1.sql"]).metadata = some [recM1] ∧
    fileNameFor "m1" ∈ (StoreState.mk true (some [recM1]) ["m1.sql"]).files ∧
    removeMigration "m1" (StoreState.mk true (some [recM1]) ["m1.sql"]) =
      (.ok (), StoreState.mk true (some []) []) :=
  ⟨by decide, by decide,
    (remove_success_iff_file_present (StoreState.mk true (some [recM1]) ["m1.sql"])
      [recM1] "m1" (by decide)).1 (by decide)⟩

/-- C3, counterexample: from a state where the migrations directory
exists but the metadata index file is absent, ensureMigrationsDir
returns without creating the index, so the claimed postcondition (the
index file exists after the call) fails. -/
theorem ensureInitialized_counterexample :
    ensureMigrationsDir (StoreState.mk true none []) = StoreState.mk true none [] ∧
    (ensureMigrationsDir (StoreState.mk true none [])).metadata = none := by
  decide

/-- C3 (amended): ensureMigrationsDir creates the directory and an
empty index only when the directory is absent; when the directory
already exists it changes nothing — even if the index file is missing,
none is created.  The call is idempotent, and in particular a second
call when both directory and index exist changes nothing. -/
theorem ensureInitialized_amended (st : StoreState) :
    (st.dirExists = false →
      ensureMigrationsDir st = StoreState.mk true (some []) st.files) ∧
    (st.dirExists = true → ensureMigrationsDir st = st) ∧
    ensureMigrationsDir (ensureMigrationsDir st) = ensureMigrationsDir st := by
  rcases st with ⟨d, md, f⟩
  cases d <;> simp [ensureMigrationsDir]

/-- Evaluation of the amended C3 statement: from a wholly uninitialized
state the call creates the directory and the empty index. -/
theorem ensureInitialized_amended_witness :
    (StoreState.mk false none []).dirExists = false ∧
    ensureMigrationsDir (StoreState.mk false none []) = StoreState.mk true (some []) [] :=
  ⟨by decide, (ensureInitialized_amended (StoreState.mk false none [])).1 (by decide)⟩

/-- C4: for the record with sqlText CREATE TABLE tasks (id SERIAL
PRIMARY KEY) and kind table, the synthesized revert SQL is exactly DROP
TABLE IF EXISTS tasks; and for every record of kind alter the
synthesizer fails with the unsupported-kind error. -/
theorem revertSynthesis_table_and_alter :
    generateRevertSql
      (Migration.mk "id1" "table_1" 0 "CREATE TABLE tasks (id SERIAL PRIMARY KEY)"
        .table none "ck") = .ok "DROP TABLE IF EXISTS tasks" ∧
    ∀ (id nm sql ck : String) (ts : Nat) (d : Option String),
      generateRevertSql (Migration.mk id nm ts sql .alter d ck) =
        .error "Revert not implemented for migration type: alter" :=
  ⟨by decide, fun _ _ _ _ _ _ => rfl⟩

/-- C5, counterexample: with two spaces between CREATE and TABLE the
extraction takes the third single-space-split fragment, which is the
keyword TABLE rather than the token following CREATE TABLE, so the
claimed whitespace tolerance fails. -/
theorem revertSynthesis_whitespace_counterexample :
    generateRevertSql
      (Migration.mk "i" "n" 0 "CREATE  TABLE tasks (id SERIAL PRIMARY KEY)"
        .table none "ck") = .ok "DROP TABLE IF EXISTS TABLE" ∧
    (Except.ok "DROP TABLE IF EXISTS TABLE" : Except String String) ≠
      .ok "DROP TABLE IF EXISTS tasks" := by
  decide

/-- C5 (amended): for kind table the extraction is the third token of a
single-space split, not whitespace-tolerant pattern matching: whenever
the sqlText consists of two space-free words, a space-free name and an
arbitrary remainder separated by single spaces, the synthesized SQL is
DROP TABLE IF EXISTS followed by that third token — whatever the two
leading words are, so keyword casing is indeed immaterial — but tokens
separated by other whitespace amounts are not handled. -/
theorem revertSynthesis_table_third_token (w1 w2 nameTok rest : List Char)
    (id nm ck : String) (ts : Nat) (d : Option String)
    (h1 : ' ' ∉ w1) (h2 : ' ' ∉ w2) (h3 : ' ' ∉ nameTok) :
    generateRevertSql
      (Migration.mk id nm ts
        (String.mk (w1 ++ ' ' :: (w2 ++ ' ' :: (nameTok ++ ' ' :: rest)))) .table d ck) =
      .ok ("DROP TABLE IF EXISTS " ++ String.mk nameTok) := by
  simp only [generateRevertSql, jsSplitSpace]
  rw [splitSpace_sep w1 _ h1, splitSpace_sep w2 _ h2, splitSpace_sep nameTok _ h3]
  simp [List.getD]

/-- Evaluation of the amended C5 statement on lowercase keywords:
the third token is still extracted. -/
theorem revertSynthesis_table_third_token_witness :
    ' ' ∉ "create".data ∧ ' ' ∉ "table".data ∧ ' ' ∉ "tasks".data ∧
    generateRevertSql
      (Migration.mk "i" "n" 0
        (String.mk ("create".data ++ ' ' :: ("table".data ++ ' ' ::
          ("tasks".data ++ ' ' :: "(x int)".data)))) .table none "ck") =
      .ok ("DROP TABLE IF EXISTS " ++ String.mk "tasks".data) :=
  ⟨by decide, by decide, by decide,
    revertSynthesis_table_third_token "create".data "table".data "tasks".data "(x int)".data
      "i" "n" "ck" 0 none (by decide) (by decide) (by decide)⟩

/-- C6, counterexample: for kind table an sqlText with no third token
does not yield the empty string — the out-of-range array access
interpolates the text undefined into the template, so the synthesizer
returns DROP TABLE IF EXISTS undefined instead of the claimed empty
string. -/
theorem revertSynthesis_no_match_counterexample :
    generateRevertSql (Migration.mk "i" "n" 0 "X" .table none "ck") =
      .ok "DROP TABLE IF EXISTS undefined" ∧
    (Except.ok "DROP TABLE IF EXISTS undefined" : Except String String) ≠ .ok "" := by
  decide

/-- C6 (amended): only the function, trigger and index kinds return the
empty string without raising when their pattern does not match; the
table kind never returns the empty string — a failed extraction
produces DROP TABLE IF EXISTS undefined instead. -/
theorem revertSynthesis_no_match_amended :
    (∀ (id nm sql ck : String) (ts : Nat) (d : Option String),
      findFunctionName sql = none →
      generateRevertSql (Migration.mk id nm ts sql .function d ck) = .ok "") ∧
    (∀ (id nm sql ck : String) (ts : Nat) (d : Option String),
      findTriggerNames sql = none →
      generateRevertSql (Migration.mk id nm ts sql .trigger d ck) = .ok "") ∧
    (∀ (id nm sql ck : String) (ts : Nat) (d : Option String),
      findIndexName sql = none →
      generateRevertSql (Migration.mk id nm ts sql .index d ck) = .ok "") ∧
    (∀ (id nm sql ck : String) (ts : Nat) (d : Option String),
      generateRevertSql (Migration.mk id nm ts sql .table d ck) ≠ .ok "") := by
  refine ⟨?_, ?_, ?_, ?_⟩
  · intro id nm sql ck ts d h
    simp [generateRevertSql, h]
  · intro id nm sql ck ts d h
    simp [generateRevertSql, h]
  · intro id nm sql ck ts d h
    simp [generateRevertSql, h]
  · intro id nm sql ck ts d h
    have h2 : "DROP TABLE IF EXISTS " ++ (jsSplitSpace sql).getD 2 "undefined" = "" :=
      Except.ok.inj h
    exact append_ne_empty _ _ (by decide) h2

/-- Evaluation of the amended C6 statement: an sqlText matching none of
the patterns makes the function kind return the empty string. -/
theorem revertSynthesis_no_match_amended_witness :
    findFunctionName "hello" = none ∧
    generateRevertSql (Migration.mk "i" "n" 0 "hello" .function none "ck") = .ok "" :=
  ⟨by decide, revertSynthesis_no_match_amended.1 "i" "n" "hello" "ck" 0 none (by decide)⟩

/-- C7: every record returned by createMigration carries a checksum
equal to the SHA-256 digest of its sqlText at creation. -/
theorem createMigration_checksum (st : StoreState) (type : MigrationType)
    (sql : String) (d : Option String) (now : Nat) (rand : String)
    (m : Migration) (st' : StoreState)
    (h : createMigration st type sql d now rand = (some m, st')) :
    m.checksum = generateChecksum m.sql ∧ generateChecksum m.sql = sha256Hex m.sql := by
  rcases st with ⟨sd, smd, sf⟩
  cases sd with
  | false =>
    simp [createMigration, ensureMigrationsDir] at h
    obtain ⟨h1, _⟩ := h
    rw [← h1]
    exact ⟨rfl, rfl⟩
  | true =>
    cases smd with
    | none => simp [createMigration, ensureMigrationsDir] at h
    | some l =>
      simp [createMigration, ensureMigrationsDir] at h
      obtain ⟨h1, _⟩ := h
      rw [← h1]
      exact ⟨rfl, rfl⟩

/-- Evaluation of the C7 statement on a concrete call: the record for
sqlText abc carries the SHA-256 digest of abc. -/
theorem createMigration_checksum_witness :
    createMigration initializedStore .table "abc" none 5 "ab" =
      (some recAbc, StoreState.mk true (some [recAbc]) ["5_ab.sql"]) ∧
    (recAbc.checksum = generateChecksum recAbc.sql ∧
     generateChecksum recAbc.sql = sha256Hex recAbc.sql) :=
  ⟨by decide,
    createMigration_checksum initializedStore .table "abc" none 5 "ab" recAbc
      (StoreState.mk true (some [recAbc]) ["5_ab.sql"]) (by decide)⟩

/-- C8, counterexample: two creation calls within the same clock
millisecond whose random suffixes decrease produce a metadata list in
creation order whose ids are not strictly increasing under
lexicographic comparison. -/
theorem listMigrations_id_order_counterexample :
    (getMigrations (runCreations initializedStore sameMsCalls)).map (fun m => m.id) =
      ["5_bb", "5_aa"] ∧
    ¬ strLexLt "5_bb" "5_aa" := by
  decide

/-- C8 (amended): listMigrations returns the records exactly in
creation order; the ids are additionally strictly increasing under
lexicographic comparison whenever consecutive creations use strictly
increasing clock values whose decimal representations have equal
length — for creations within the same millisecond the random suffix
gives no ordering guarantee. -/
theorem listMigrations_order_amended (calls : List CallSpec) (st : StoreState)
    (l : List Migration) (hd : st.dirExists = true) (hm : st.metadata = some l) :
    getMigrations (runCreations st calls) = l ++ calls.map mkRecord ∧
    (List.Chain' (fun c c' => c.now < c'.now ∧
        (decChars c.now).length = (decChars c'.now).length) calls →
      List.Chain' (fun m m' => strLexLt m.id m'.id) (calls.map mkRecord)) := by
  constructor
  · have h := runCreations_metadata calls st l hd hm
    simp [getMigrations, h.2]
  · intro hc
    rw [List.chain'_map]
    exact hc.imp (fun a b hab => generateMigrationId_lt _ _ hab.1 hab.2)

/-- Evaluation of the amended C8 statement on two calls at clocks 2 and
5: the list equals the created records in order and the ids increase. -/
theorem listMigrations_order_amended_witness :
    initializedStore.dirExists = true ∧
    initializedStore.metadata = some [] ∧
    List.Chain' (fun c c' => c.now < c'.now ∧
      (decChars c.now).length = (decChars c'.now).length) increasingCalls ∧
    getMigrations (runCreations initializedStore increasingCalls) =
      [] ++ increasingCalls.map mkRecord ∧
    List.Chain' (fun m m' => strLexLt m.id m'.id) (increasingCalls.map mkRecord) := by
  have hc : List.Chain' (fun c c' => c.now < c'.now ∧
      (decChars c.now).length = (decChars c'.now).length) increasingCalls := by
    rw [show increasingCalls =
      [(⟨.table, "CREATE TABLE t1 (x int)", none, 2, "xx"⟩ : CallSpec),
       ⟨.table, "CREATE TABLE t2 (x int)", none, 5, "yy"⟩] from rfl]
    exact List.chain'_pair.mpr ⟨by decide, by decide⟩
  exact ⟨rfl, rfl, hc,
    (listMigrations_order_amended increasingCalls initializedStore [] rfl rfl).1,
    (listMigrations_order_amended increasingCalls initializedStore [] rfl rfl).2 hc⟩

/-- C9: in the revertMigration handler the store is modified only after
the revert SQL has executed and committed — whenever execution of the
synthesized revert SQL fails, the transaction is rolled back, the error
propagates, and both the store and the database are left unchanged; and
any outcome whose store differs from the initial one arises from a
successfully committed execution whose resulting database state the
outcome carries. -/
theorem revertMigration_removes_only_after_commit (D : Type)
    (exec : D → String → Option D) (migrationId : Option String)
    (st : StoreState) (db : D) :
    (∀ target sql, selectTarget migrationId (getMigrations st) = some target →
      generateRevertSql target = .ok sql → exec db sql = none →
      revertMigrationTool exec migrationId st db =
        ⟨.error "ExecutionFailure", st, db⟩) ∧
    ((revertMigrationTool exec migrationId st db).store ≠ st →
      ∃ target sql db2, selectTarget migrationId (getMigrations st) = some target ∧
        generateRevertSql target = .ok sql ∧ exec db sql = some db2 ∧
        (revertMigrationTool exec migrationId st db).db = db2) := by
  constructor
  · intro target sql h1 h2 h3
    have hE : (getMigrations st).isEmpty = false := by
      cases hQ : getMigrations st with
      | nil =>
        rw [hQ] at h1
        cases migrationId <;> simp [selectTarget] at h1
      | cons a l => rfl
    simp [revertMigrationTool, hE, h1, h2, h3]
  · intro hne
    by_cases hE : (getMigrations st).isEmpty = true
    · exfalso
      apply hne
      simp [revertMigrationTool, hE]
    · cases hT : selectTarget migrationId (getMigrations st) with
      | none =>
        exfalso
        apply hne
        simp [revertMigrationTool, hE, hT]
      | some target =>
        cases hG : generateRevertSql target with
        | error e =>
          exfalso
          apply hne
          simp [revertMigrationTool, hE, hT, hG]
        | ok sql =>
          cases hX : exec db sql with
          | none =>
            exfalso
            apply hne
            simp [revertMigrationTool, hE, hT, hG, hX]
          | some db2 =>
            refine ⟨target, sql, db2, rfl, hG, hX, ?_⟩
            rcases hR : removeMigration target.id st with ⟨r, st2⟩
            cases r with
            | ok u => simp [revertMigrationTool, hE, hT, hG, hX, hR]
            | error e => simp [revertMigrationTool, hE, hT, hG, hX, hR]

/-- Evaluation of the C9 statement with an oracle that fails every
execution: the handler reports the failure and leaves the store with
its single record and the database value untouched. -/
theorem revertMigration_removes_only_after_commit_witness :
    selectTarget (some "m1")
      (getMigrations (StoreState.mk true (some [recM1]) ["m1.sql"])) = some recM1 ∧
    generateRevertSql recM1 = .ok "DROP TABLE IF EXISTS tasks" ∧
    failingExec 0 "DROP TABLE IF EXISTS tasks" = none ∧
    revertMigrationTool failingExec (some "m1")
        (StoreState.mk true (some [recM1]) ["m1.sql"]) 0 =
      ⟨.error "ExecutionFailure", StoreState.mk true (some [recM1]) ["m1.sql"], 0⟩ :=
  ⟨by decide, by decide, rfl,
    (revertMigration_removes_only_after_commit Nat failingExec (some "m1")
      (StoreState.mk true (some [recM1]) ["m1.sql"]) 0).1 recM1
      "DROP TABLE IF EXISTS tasks" (by decide) (by decide) rfl⟩

/-- C10: removeMigration drops exactly the index entries whose id
equals the argument — the surviving entries are the filter of the index
by a differing id, so every other record stays present, field for
field, in its original relative order; this holds for every store
state, the unreadable-index state included. -/
theorem removeMigration_frame (st : StoreState) (migrationId : String) :
    ((removeMigration migrationId st).2).metadata =
      st.metadata.map (fun l => l.filter (fun m => m.id != migrationId)) := by
  rcases st with ⟨d, md, f⟩
  cases md with
  | none => rfl
  | some l =>
    simp only [removeMigration, Option.map_some]
    split <;> rfl
